import Mathlib

set_option maxRecDepth 8000

/-!
Shallow embedding of `main.py` from the client-success-helpers repository:
an invoice-body field segmenter (`parse_invoice_text`), a label/value
scanner (`process_key_value_pairs`), a key-item registry, and the batch
driver (`process_zip_archive`).  Strings are modelled at the character
level; the ASCII fragments of the Python predicates (`str.isdigit`,
`str.islower`, `re` character classes) are used, which is exact on every
input appearing in the source and in the claims.
-/

/-! ### Character classes (ASCII fragments of the Python string methods) -/

/-- The whitespace class of Python `str.strip` / regex `\s` (ASCII part). -/
def isPyWs (c : Char) : Bool :=
  c = ' ' || c = '\t' || c = '\n' || c = '\r' || c = '\x0b' || c = '\x0c'

def isUpperAZ (c : Char) : Bool := 'A' ≤ c && c ≤ 'Z'

def isLowerAZ (c : Char) : Bool := 'a' ≤ c && c ≤ 'z'

def isDigit09 (c : Char) : Bool := '0' ≤ c && c ≤ '9'

/-- A cased character in the ASCII range (used by Python `str.islower`). -/
def isCasedAscii (c : Char) : Bool := isUpperAZ c || isLowerAZ c

/-- Python `str.strip()`: drop whitespace from both ends. -/
def pyStrip (cs : List Char) : List Char :=
  ((cs.dropWhile isPyWs).reverse.dropWhile isPyWs).reverse

/-- Python `str.split(sep)` for a one-character separator. -/
def splitOnChar (sep : Char) : List Char → List (List Char)
  | [] => [[]]
  | c :: rest =>
    match splitOnChar sep rest with
    | [] => [[]]
    | g :: gs => if c = sep then [] :: g :: gs else (c :: g) :: gs

/-- Python `str.strip()` on `String`. -/
def pyStripS (s : String) : String := String.mk (pyStrip s.data)

/-- `lines = [line.strip() for line in matched_text.split('\n') if line.strip()]`
(main.py line 65): the token stream of a body span. -/
def tokenize (t : String) : List String :=
  (((splitOnChar '\n' t.data).map (fun cs => String.mk (pyStrip cs))).filter
    (fun l => l ≠ ""))

/-- Python `str.isdigit()` (ASCII digits): non-empty and all digits. -/
def pyIsdigit (cs : List Char) : Bool := !cs.isEmpty && cs.all isDigit09

/-- `text.replace(',', '').replace('.', '')` (main.py lines 83, 89). -/
def stripCommaPeriod (cs : List Char) : List Char :=
  cs.filter (fun c => c ≠ ',' && c ≠ '.')

/-- `re.match(r'^\d{7}-\d{5,6}$', t) is not None` (main.py line 84). -/
def partNumberShape (s : String) : Bool :=
  let cs := s.data
  ((cs.take 7).length == 7) && (cs.take 7).all isDigit09 &&
  (match cs.drop 7 with
   | '-' :: _ => true
   | _ => false) &&
  (5 ≤ (cs.drop 8).length && (cs.drop 8).length ≤ 6) &&
  (cs.drop 8).all isDigit09

/-- Whether the regex `[A-Z]{2}\s+[A-Z][a-z]+.*` matches at the start of the
character list.  The trailing `.*` never constrains matchability. -/
def countryShapeAt (cs : List Char) : Bool :=
  match cs with
  | c1 :: c2 :: rest =>
    isUpperAZ c1 && isUpperAZ c2 &&
    (match rest with
     | c3 :: _ =>
       isPyWs c3 &&
       (match rest.dropWhile isPyWs with
        | u :: l :: _ => isUpperAZ u && isLowerAZ l
        | _ => false)
     | [] => false)
  | _ => false

/-- `re.compile(r'[A-Z]{2}\s+[A-Z][a-z]+.*').search(s) is not None`
(main.py lines 96-97): the pattern matches somewhere in `s`. -/
def hasCountryShape (s : String) : Bool := s.data.tails.any countryShapeAt

/-! ### Boundary classifiers (`InvoiceTextPatternsIntefrface`, main.py 80-102) -/

/-- `description` classifier: stop if the inspected token is numeric after
removing commas/periods, or has the 7-digits-hyphen-5-to-6-digits shape. -/
def descriptionStop (values : List String) (index : Nat) : Bool :=
  pyIsdigit (stripCommaPeriod (values.getD index "").data) ||
  partNumberShape (values.getD index "")

/-- `assembled_in` classifier: stop if the inspected token is numeric after
removing commas/periods. -/
def assembledInStop (values : List String) (index : Nat) : Bool :=
  pyIsdigit (stripCommaPeriod (values.getD index "").data)

/-- `qty_per_country` classifier: stop when the number of country-shaped
tokens in the previous accumulator equals the size of the current one and
both accumulators are non-empty. -/
def qtyPerCountryStop (previousExtract currentExtract : List String) : Bool :=
  let n := (previousExtract.filter hasCountryShape).length
  (n == currentExtract.length) &&
  (!previousExtract.isEmpty && !currentExtract.isEmpty)

/-- The `InvoiceTextPatterns.lookup` dispatch (main.py 106-110): classifier
chosen by field name.  Only the three multi-line field names are keys of the
Python dict; other names never reach the dispatch because only those three
are marked multi-line in `field_definitions`. -/
def classifierFor (name : String) (values : List String) (prev : List String)
    (index : Nat) (current : List String) : Bool :=
  if name = "Description" then descriptionStop values index
  else if name = "Assembled In" then assembledInStop values index
  else if name = "Qty Per Country" then qtyPerCountryStop prev current
  else false

/-! ### The fixed nine-field schema (main.py 127-169) -/

structure FieldDef where
  name : String
  multi_line : Bool
  join_string : String
  deriving DecidableEq

/-- `field_definitions` (main.py 127-169): `multi_line` is the dict's
`.get('multi_line')` truthiness, `join_string` its `.get('join_string', ' ')`
default. -/
def field_definitions : List FieldDef :=
  [⟨"Line", false, " "⟩,
   ⟨"Marketing Part Number", false, " "⟩,
   ⟨"Description", true, " "⟩,
   ⟨"Comprising Manufacturing Part No", false, " "⟩,
   ⟨"Assembled In", true, ", "⟩,
   ⟨"Qty Per Country", true, ", "⟩,
   ⟨"Shipped Qty", false, " "⟩,
   ⟨"Unit Price", false, " "⟩,
   ⟨"Line Total", false, " "⟩]

/-- Python `join_string.join(parts)`. -/
def joinWith (sep : String) : List String → String
  | [] => ""
  | [x] => x
  | x :: y :: xs => x ++ sep ++ joinWith sep (y :: xs)

/-- The `while value_index < len(values)` collection loop for a multi-line
field (main.py 187-199).  It walks the suffix `values.drop index` (so the
recursion is structural); `index` tracks the Python cursor and `acc` the
`current_multi_line_parts` accumulator.  Returns the final cursor and
accumulator. -/
def collectMulti (stop : Nat → List String → Bool) :
    List String → Nat → List String → Nat × List String
  | [], index, acc => (index, acc)
  | t :: rem, index, acc =>
    if stop index acc then (index, acc)
    else collectMulti stop rem (index + 1) (acc ++ [t])

/-- The main field walk of `parse_invoice_text` (main.py 171-208): fold the
schema over the value tokens, threading the cursor `index` and the previous
multi-line accumulator `prev`. -/
def runFields (values : List String) :
    List FieldDef → Nat → List String → List (String × Option String)
  | [], _, _ => []
  | f :: rest, index, prev =>
    if index < values.length then
      if f.multi_line then
        let p := collectMulti (classifierFor f.name values prev)
          (values.drop index) index []
        (f.name, some (joinWith f.join_string p.2)) ::
          runFields values rest p.1 p.2
      else
        (f.name, some (values.getD index "")) ::
          runFields values rest (index + 1) prev
    else
      (f.name, none) :: runFields values rest index prev

/-- Python `list.index` returning the first position of `target`. -/
def firstIndexOf (target : String) : List String → Option Nat
  | [] => none
  | l :: ls =>
    if l = target then some 0 else (firstIndexOf target ls).map (· + 1)

/-- `parse_invoice_text` (main.py 62-212): tokenize the span, locate the
first `"Line Total"` token (returning `none` when absent, the Python
`ValueError` path), and run the nine-field walk on the tokens after it. -/
def parse_invoice_text (matched_text : String) :
    Option (List (String × Option String)) :=
  let lines := tokenize matched_text
  match firstIndexOf "Line Total" lines with
  | none => none
  | some i => some (runFields (lines.drop (i + 1)) field_definitions 0 [])

/-! ### Data model: `DataType`, `KeyItem`, `KeyItemCollection` (main.py 13-59) -/

/-- Python exception kinds raised by the modelled code. -/
inductive PyError where
  | valueError (msg : String)
  | keyError (msg : String)
  deriving DecidableEq

inductive DataType where
  | TEXT
  | NUMBER
  | DATE
  deriving DecidableEq

structure KeyItem where
  key : String
  search_text : String
  data_type : DataType := DataType.TEXT
  result : Option String := none
  file_name : Option String := none
  deriving DecidableEq

/-- Python `str.islower()` (ASCII): at least one cased character and no
uppercase character. -/
def pyIslower (s : String) : Bool :=
  s.data.any isCasedAscii && !s.data.any isUpperAZ

/-- `KeyItem.__post_init__` (main.py 29-32): dataclass construction with
key validation; raising `ValueError` is modelled as `Except.error`. -/
def mkKeyItem (key search_text : String) (data_type : DataType) :
    Except PyError KeyItem :=
  if !pyIslower key || key.data.any (fun c => c = ' ') then
    Except.error (PyError.valueError "Key must be lowercase without spaces")
  else
    Except.ok { key := key, search_text := search_text, data_type := data_type }

structure KeyItemCollection where
  items : List KeyItem := []
  deriving DecidableEq

/-- `KeyItemCollection.__getitem__` (main.py 40-45): first item with the
key, else `KeyError`. -/
def getItem (c : KeyItemCollection) (key : String) : Except PyError KeyItem :=
  match c.items.find? (fun it => it.key = key) with
  | some it => Except.ok it
  | none => Except.error (PyError.keyError ("No item with key " ++ key ++ " found"))

/-- `KeyItemCollection.add_item` (main.py 47-51).  On a duplicate key Python
raises before appending, so the collection is returned unchanged together
with the error; on success the item is appended. -/
def add_item (c : KeyItemCollection) (it : KeyItem) :
    KeyItemCollection × Option PyError :=
  if c.items.any (fun e => e.key = it.key) then
    (c, some (PyError.valueError ("Key " ++ it.key ++ " already exists")))
  else
    (⟨c.items ++ [it]⟩, none)

/-- Folding `add_item` over a list of items (any collection reachable by
`add_item` operations from `c`). -/
def addAll (c : KeyItemCollection) (its : List KeyItem) : KeyItemCollection :=
  its.foldl (fun acc it => (add_item acc it).1) c

/-- `update_result` via `self[key].result = value` (main.py 57-59): mutate
the first item carrying `key`.  In Python an absent key raises `KeyError`;
in the modelled flow the key always comes from the collection itself, so the
absent case (identity here) is unreachable. -/
def updateFirst (key : String) (v : String) : List KeyItem → List KeyItem
  | [] => []
  | it :: rest =>
    if it.key = key then { it with result := some v } :: rest
    else it :: updateFirst key v rest

/-! ### Python dict operations (insertion-ordered association lists) -/

/-- `d[k] = v` on a Python dict: override the (unique) existing binding in
place, else append at the end. -/
def dictInsert {α : Type} : List (String × α) → String → α → List (String × α)
  | [], k, v => [(k, v)]
  | p :: d, k, v => if p.1 = k then (k, v) :: d else p :: dictInsert d k v

/-- `{**a, **b}` on Python dicts. -/
def dictMerge {α : Type} (a b : List (String × α)) : List (String × α) :=
  b.foldl (fun d p => dictInsert d p.1 p.2) a

/-- `d[k]` lookup (first, and in a well-formed dict only, binding). -/
def dictLookup {α : Type} (d : List (String × α)) (k : String) : Option α :=
  (d.find? (fun p => p.1 = k)).map Prod.snd

/-- `k in d` on a Python dict. -/
def dictHasKey {α : Type} (d : List (String × α)) (k : String) : Bool :=
  d.any (fun p => p.1 = k)

/-- `del d[k]` on a Python dict. -/
def dictDelete {α : Type} (d : List (String × α)) (k : String) :
    List (String × α) :=
  d.filter (fun p => p.1 ≠ k)

/-- The dict comprehension `{item.search_text: item.key for item in items}`
(main.py 262): later duplicates override earlier ones. -/
def mkMapping (items : List KeyItem) : List (String × String) :=
  items.foldl (fun d it => dictInsert d it.search_text it.key) []

/-! ### Key-Value Scanner (`process_key_value_pairs`, main.py 223-241) -/

/-- The scanner state threaded through every line of every page: the
collection items, the remaining label-to-key mapping, and the pending label
(`key_found`). -/
structure ScanState where
  items : List KeyItem
  mapping : List (String × String)
  keyFound : Option String
  deriving DecidableEq

/-- One iteration of the inner loop of `process_key_value_pairs`.  The
pending test `if key_found:` (main.py 231) is a Python truthiness test, so
it takes the consuming branch only when the pending label is a **non-empty**
string: then the stripped line becomes its value (and the line is never
tested against the mapping — the Python `continue`).  When `key_found` is
`None` or the empty string (both falsy), execution falls through to the
membership test `if clean_line in search_mapping`, which stores the line as
the new pending label on a hit and otherwise leaves the state unchanged
(in particular a pending `""` stays pending). -/
def scanLine (st : ScanState) (line : String) : ScanState :=
  let clean := pyStripS line
  match st.keyFound with
  | some lbl =>
    if lbl = "" then
      if dictHasKey st.mapping clean then { st with keyFound := some clean }
      else st
    else
      let items :=
        match dictLookup st.mapping lbl with
        | some k => updateFirst k clean st.items
        | none => st.items
      { items := items, mapping := dictDelete st.mapping lbl, keyFound := none }
  | none =>
    if dictHasKey st.mapping clean then { st with keyFound := some clean }
    else st

/-- `for line in page_text.split('\n')` over one page. -/
def pageLines (p : String) : List String :=
  (splitOnChar '\n' p.data).map String.mk

def scanLines (lines : List String) (st : ScanState) : ScanState :=
  lines.foldl scanLine st

/-- `process_key_value_pairs` (main.py 223-241): the nested page/line loop;
the pending-label slot is declared outside the page loop and so carries
across page boundaries. -/
def process_key_value_pairs (pages : List String) (st : ScanState) : ScanState :=
  pages.foldl (fun s p => scanLines (pageLines p) s) st

/-! ### Body Locator (`extract_invoice_body`, main.py 244-250) -/

/-- First index at which `needle` occurs as a sublist. -/
def findSubFrom (needle : List Char) : List Char → Option Nat
  | [] => if needle.isEmpty then some 0 else none
  | c :: rest =>
    if needle.isPrefixOf (c :: rest) then some 0
    else (findSubFrom needle rest).map (· + 1)

/-- `re.search(r'(Line.*?)License:', page, re.DOTALL)`: the leftmost start
position whose `Line` is followed by a later `License:`; group 1 runs from
that `Line` up to (excluding) the first subsequent `License:`. -/
def lineLicenseSpan : List Char → Option (List Char)
  | [] => none
  | c :: rest =>
    if ("Line".data).isPrefixOf (c :: rest) then
      match findSubFrom ("License:".data) ((c :: rest).drop 4) with
      | some d => some ((c :: rest).take (4 + d))
      | none => lineLicenseSpan rest
    else lineLicenseSpan rest

/-- `extract_invoice_body` (main.py 244-250): first page with a body span
wins, and its `parse_invoice_text` result is returned even when that is
`None`. -/
def extract_invoice_body : List String → Option (List (String × Option String))
  | [] => none
  | p :: rest =>
    match lineLicenseSpan p.data with
    | some span => parse_invoice_text (String.mk span)
    | none => extract_invoice_body rest

/-! ### Per-document processing (`process_single_pdf`, main.py 253-273) -/

/-- `process_single_pdf` (main.py 253-273).  The external PDF collaborator
is modelled by the entry content: `some pages` means `fitz.open` and per-page
`get_text` succeed and yield those page strings; `none` means opening or
reading throws, which the function catches, leaving the collection untouched
and the result dict empty.  On success it runs the scanner (mutating the
collection) and the body extractor (`results.update(... or {})`). -/
def process_single_pdf (pages? : Option (List String))
    (coll : KeyItemCollection) :
    List (String × Option String) × KeyItemCollection :=
  match pages? with
  | none => ([], coll)
  | some pages =>
    let st := process_key_value_pairs pages
      ⟨coll.items, mkMapping coll.items, none⟩
    let body := (extract_invoice_body pages).getD []
    (body, ⟨st.items⟩)

/-! ### Batch driver (`process_zip_archive`, main.py 276-321) -/

/-- One archive entry: its filename and, for the PDF collaborator, the page
texts it yields (`none` = extraction throws for this entry). -/
structure ZipEntry where
  name : String
  pages : Option (List String)
  deriving DecidableEq

/-- `file_info.filename.lower().endswith('.pdf')` (ASCII lowering). -/
def lowerEndsPdf (name : String) : Bool :=
  (".pdf".data).isSuffixOf (name.data.map Char.toLower)

/-- The record dict built at main.py 306-310:
`{'filename': name, **{item.key: item.result}, **invoice_data}`. -/
def mkRecordDict (name : String) (items : List KeyItem)
    (inv : List (String × Option String)) : List (String × Option String) :=
  dictMerge
    (dictMerge [("filename", some name)]
      (items.foldl (fun d it => dictInsert d it.key it.result) []))
    inv

/-- An item with its mutable `result` slot cleared (the per-item effect of
the reset loop at main.py 313-315). -/
def skelItem (it : KeyItem) : KeyItem := { it with result := none }

/-- The per-document reset at main.py 313-315: every item's `result` is set
back to `None`. -/
def resetColl (c : KeyItemCollection) : KeyItemCollection :=
  ⟨c.items.map skelItem⟩

/-- The record a single archive entry produces when processed against
collection state `coll`. -/
def docRecord (coll : KeyItemCollection) (e : ZipEntry) :
    List (String × Option String) :=
  let pr := process_single_pdf e.pages coll
  mkRecordDict e.name pr.2.items pr.1

/-- The `for idx, file_info in enumerate(zip_ref.infolist(), start=1)` loop
of `process_zip_archive` (main.py 292-319).  Returns the record list, the
final collection state, and the list of `(idx, total)` arguments passed to
the progress callback, in invocation order. -/
def zipGo (total : Nat) :
    List ZipEntry → Nat → KeyItemCollection →
      List (List (String × Option String)) × KeyItemCollection ×
        List (Nat × Nat)
  | [], _, coll => ([], coll, [])
  | e :: rest, idx, coll =>
    if lowerEndsPdf e.name then
      let pr := process_single_pdf e.pages coll
      let record := mkRecordDict e.name pr.2.items pr.1
      let next := zipGo total rest (idx + 1) (resetColl pr.2)
      (record :: next.1, next.2.1, (idx, total) :: next.2.2)
    else
      zipGo total rest (idx + 1) coll

/-- `process_zip_archive` (main.py 276-321): `total_files` is the number of
PDF entries **plus one** (main.py 290), and the entry index starts at 1 and
counts every archive entry, PDF or not. -/
def process_zip_archive (entries : List ZipEntry) (coll : KeyItemCollection) :
    List (List (String × Option String)) × KeyItemCollection ×
      List (Nat × Nat) :=
  zipGo ((entries.filter (fun e => lowerEndsPdf e.name)).length + 1)
    entries 1 coll

/-! ### Definitions used to state the claims -/

/-- The body span of Example A: the anchor line followed by the ten value
tokens of the claim. -/
def exampleASpan : String :=
  "Line Total\n1\nMKT-001\nWidget Assembly\n1234567-890123\nCN China\n10\nCN China\n10\n100.00\n1,000.00"

def exampleAValues : List String :=
  ["1", "MKT-001", "Widget Assembly", "1234567-890123", "CN China", "10",
   "CN China", "10", "100.00", "1,000.00"]

def exampleAResult : List (String × Option String) :=
  [("Line", some "1"),
   ("Marketing Part Number", some "MKT-001"),
   ("Description", some "Widget Assembly"),
   ("Comprising Manufacturing Part No", some "1234567-890123"),
   ("Assembled In", some "CN China"),
   ("Qty Per Country", some "10"),
   ("Shipped Qty", some "CN China"),
   ("Unit Price", some "10"),
   ("Line Total", some "100.00")]

/-- The 1-based positions, among **all** archive entries, of the entries
whose lowercased name ends in ".pdf" (the indices the loop at main.py 292
hands to the callback). -/
def pdfPositions : List ZipEntry → Nat → List Nat
  | [], _ => []
  | e :: rest, idx =>
    if lowerEndsPdf e.name then idx :: pdfPositions rest (idx + 1)
    else pdfPositions rest (idx + 1)

/-- The observable result slot of the first item carrying key `k` (what
`collection[k].result` reads). -/
def resultOf (items : List KeyItem) (k : String) : Option (Option String) :=
  (items.find? (fun it => it.key = k)).map (fun it => it.result)

/-- Two-item collection used to witness the scanner claims. -/
def c10Items : List KeyItem :=
  [⟨"ka", "A", DataType.TEXT, none, none⟩,
   ⟨"kb", "B", DataType.TEXT, none, none⟩]

def c10Map : List (String × String) := [("A", "ka"), ("B", "kb")]

/-- Collection registering an **empty** label (nothing in `KeyItem`
validates `search_text`, so this state is reachable). -/
def c10EmptyItems : List KeyItem :=
  [⟨"kempty", "", DataType.TEXT, none, none⟩,
   ⟨"kb", "B", DataType.TEXT, none, none⟩]

def c10EmptyMap : List (String × String) := [("", "kempty"), ("B", "kb")]

/-! ## Helper lemmas -/

theorem runFields_map_fst (values : List String) :
    ∀ (fields : List FieldDef) (i : Nat) (prev : List String),
      (runFields values fields i prev).map Prod.fst = fields.map FieldDef.name
  | [], _, _ => rfl
  | f :: rest, i, prev => by
    unfold runFields
    by_cases h : i < values.length
    · by_cases hm : f.multi_line <;>
        simp [h, hm, runFields_map_fst values rest]
    · simp [h, runFields_map_fst values rest]

theorem firstIndexOf_eq_none (target : String) :
    ∀ l : List String, firstIndexOf target l = none ↔ ¬ target ∈ l
  | [] => by simp [firstIndexOf]
  | l :: ls => by
    by_cases h : l = target
    · simp [firstIndexOf, h]
    · simp [firstIndexOf, h, Option.map_eq_none',
        firstIndexOf_eq_none target ls, Ne.symm h]

theorem firstIndexOf_append (target : String) :
    ∀ (pre post : List String), ¬ target ∈ pre →
      firstIndexOf target (pre ++ target :: post) = some pre.length
  | [], _, _ => by simp [firstIndexOf]
  | p :: pre, post, h => by
    have hp : ¬ p = target := fun e => h (by simp [e])
    have hm : ¬ target ∈ pre := fun e => h (by simp [e])
    simp [firstIndexOf, hp, firstIndexOf_append target pre post hm]

theorem drop_len_succ {α : Type} (t : α) :
    ∀ (pre post : List α), (pre ++ t :: post).drop (pre.length + 1) = post
  | [], _ => rfl
  | a :: pre, post => by simp [drop_len_succ t pre post]

/-! ## Claim C1 (corrected) -/

/-- C1, counterexample: on the body span whose value tokens are exactly the
Example A list, the Field Segmenter does yield Description = "Widget
Assembly" and Assembled In = "CN China", but Line Total = "100.00", not
"1,000.00" as the claim states: after Qty Per Country stops at the second
country token, the single-line tail consumes "CN China", "10", "100.00",
and the final token "1,000.00" is never reached. -/
theorem c1_counterexample :
    tokenize exampleASpan = "Line Total" :: exampleAValues
    ∧ parse_invoice_text exampleASpan = some exampleAResult
    ∧ dictLookup exampleAResult "Description" = some (some "Widget Assembly")
    ∧ dictLookup exampleAResult "Assembled In" = some (some "CN China")
    ∧ dictLookup exampleAResult "Line Total" = some (some "100.00")
    ∧ ¬ dictLookup exampleAResult "Line Total" = some (some "1,000.00") := by
  refine ⟨by decide, by decide, by decide, by decide, by decide, by decide⟩

/-- C1 (amended): for the Example A body span the Field Segmenter assigns
Description = "Widget Assembly" (stopping before the part-number-shaped
token) and Assembled In = "CN China" (stopping at the digit token), but the
quantity/country interleaving shifts the tail: Qty Per Country = "10",
Shipped Qty = "CN China", Unit Price = "10", Line Total = "100.00", and the
final token "1,000.00" is never consumed. -/
theorem c1_amended_example_a :
    parse_invoice_text exampleASpan =
      some [("Line", some "1"),
            ("Marketing Part Number", some "MKT-001"),
            ("Description", some "Widget Assembly"),
            ("Comprising Manufacturing Part No", some "1234567-890123"),
            ("Assembled In", some "CN China"),
            ("Qty Per Country", some "10"),
            ("Shipped Qty", some "CN China"),
            ("Unit Price", some "10"),
            ("Line Total", some "100.00")] := by decide

/-! ## Claim C2 (confirmed) -/

/-- C2: the Field Segmenter returns `none` if and only if the token stream
of the span contains no token equal to "Line Total"; and when the stream
splits as `pre ++ "Line Total" :: post` with no earlier "Line Total" in
`pre`, everything up to and including that first anchor is discarded and
segmentation runs exactly on the tokens `post` after it. -/
theorem c2_anchor_semantics (t : String) :
    (parse_invoice_text t = none ↔ ¬ "Line Total" ∈ tokenize t)
    ∧ (∀ pre post : List String,
        tokenize t = pre ++ "Line Total" :: post → ¬ "Line Total" ∈ pre →
        parse_invoice_text t = some (runFields post field_definitions 0 [])) := by
  constructor
  · constructor
    · intro hnone
      cases h : firstIndexOf "Line Total" (tokenize t) with
      | none => exact (firstIndexOf_eq_none _ _).mp h
      | some i =>
        exfalso
        unfold parse_invoice_text at hnone
        simp [h] at hnone
    · intro hmem
      unfold parse_invoice_text
      simp [(firstIndexOf_eq_none "Line Total" (tokenize t)).mpr hmem]
  · intro pre post hsplit hpre
    unfold parse_invoice_text
    simp only [hsplit, firstIndexOf_append "Line Total" pre post hpre,
      drop_len_succ "Line Total" pre post]

/-- Witness for C2: a span with the anchor in the middle segments exactly
the tokens after the first anchor, and a span without the anchor yields
`none`. -/
theorem c2_witness :
    parse_invoice_text "header\nLine Total\n42" =
      some (runFields ["42"] field_definitions 0 [])
    ∧ parse_invoice_text "no anchor\nanywhere" = none :=
  ⟨(c2_anchor_semantics "header\nLine Total\n42").2 ["header"] ["42"]
      (by decide) (by decide),
   (c2_anchor_semantics "no anchor\nanywhere").1.mpr (by decide)⟩

/-! ## Claim C3 (confirmed) -/

/-- C3: the Field Segmenter is total on spans with the anchor — a field
reached with the cursor at or past the end of the value tokens is assigned
`none`; a single-line field reached with tokens remaining takes the token at
the cursor verbatim and advances the cursor by one; the walk always emits
one entry per schema field (so a parse that succeeds returns a mapping over
all 9 schema field names, never an error). -/
theorem c3_token_exhaustion (values : List String) (f : FieldDef)
    (rest fields : List FieldDef) (i : Nat) (prev : List String) :
    (values.length ≤ i →
      runFields values (f :: rest) i prev
        = (f.name, none) :: runFields values rest i prev)
    ∧ (i < values.length → f.multi_line = false →
      runFields values (f :: rest) i prev
        = (f.name, some (values.getD i "")) ::
            runFields values rest (i + 1) prev)
    ∧ ((runFields values fields i prev).map Prod.fst
        = fields.map FieldDef.name)
    ∧ (∀ (t : String) (r : List (String × Option String)),
        parse_invoice_text t = some r →
        r.map Prod.fst = field_definitions.map FieldDef.name) := by
  refine ⟨fun h => ?_, fun h hm => ?_, runFields_map_fst values fields i prev,
    fun t r hr => ?_⟩
  · rw [runFields]
    simp [Nat.not_lt_of_le h]
  · rw [runFields]
    simp [h, hm]
  · unfold parse_invoice_text at hr
    cases h : firstIndexOf "Line Total" (tokenize t) with
    | none => simp [h] at hr
    | some j =>
      simp only [h] at hr
      cases hr
      exact runFields_map_fst _ _ _ _

/-- Witness for C3: the exhausted cursor yields `none`, the in-range
single-line case takes the cursor token, and a concretely parsed span
yields entries named exactly by the nine schema fields. -/
theorem c3_witness :
    (runFields ["a"] [⟨"F", false, " "⟩] 3 []
      = ("F", none) :: runFields ["a"] [] 3 [])
    ∧ (runFields ["a"] [⟨"F", false, " "⟩] 0 []
      = ("F", some ((["a"] : List String).getD 0 "")) ::
          runFields ["a"] [] 1 [])
    ∧ ((runFields ["a"] field_definitions 0 []).map Prod.fst
        = field_definitions.map FieldDef.name)
    ∧ [("Line", (some "9" : Option String)), ("Marketing Part Number", none),
       ("Description", none), ("Comprising Manufacturing Part No", none),
       ("Assembled In", none), ("Qty Per Country", none),
       ("Shipped Qty", none), ("Unit Price", none),
       ("Line Total", none)].map Prod.fst
        = field_definitions.map FieldDef.name :=
  ⟨(c3_token_exhaustion ["a"] ⟨"F", false, " "⟩ [] [] 3 []).1 (by decide),
   (c3_token_exhaustion ["a"] ⟨"F", false, " "⟩ [] [] 0 []).2.1
     (by decide) rfl,
   (c3_token_exhaustion ["a"] ⟨"F", false, " "⟩ [] field_definitions 0 []).2.2.1,
   (c3_token_exhaustion [] ⟨"F", false, " "⟩ [] [] 0 []).2.2.2
     "Line Total\n9" _ (by decide)⟩

/-! ## Claim C9 (confirmed) -/

/-- C9: a multi-line field whose boundary classifier signals stop on the
very first inspected token is assigned the empty string (the join of an
empty accumulator) and passes `[]` on as the previous accumulator; a
multi-line field reached with tokens remaining is never `none`; and `none`
is assigned exactly when the stream is exhausted at the field, in which case
the previous accumulator handed to later fields is left untouched. -/
theorem c9_empty_string_vs_null (values : List String) (f : FieldDef)
    (rest : List FieldDef) (i : Nat) (prev : List String) :
    (f.multi_line = true → i < values.length →
      classifierFor f.name values prev i [] = true →
      runFields values (f :: rest) i prev
        = (f.name, some "") :: runFields values rest i [])
    ∧ (f.multi_line = true → i < values.length →
      ∃ s : String, (runFields values (f :: rest) i prev).head?
        = some (f.name, some s))
    ∧ (values.length ≤ i →
      runFields values (f :: rest) i prev
        = (f.name, none) :: runFields values rest i prev) := by
  refine ⟨fun hm h hstop => ?_, fun hm h => ?_, fun h => ?_⟩
  · rw [runFields]
    rw [List.drop_eq_getElem_cons h]
    simp [h, hm, collectMulti, hstop, joinWith]
  · rw [runFields]
    simp [h, hm]
  · rw [runFields]
    simp [Nat.not_lt_of_le h]

/-- Witness for C9: on values `["10"]` the Assembled In classifier stops at
the digit token immediately, so the field gets the empty string (not
`none`); with the cursor past the end the same field gets `none`. -/
theorem c9_witness :
    (runFields ["10"] [⟨"Assembled In", true, ", "⟩] 0 []
      = ("Assembled In", some "") :: runFields ["10"] [] 0 [])
    ∧ (∃ s : String,
        (runFields ["10"] [⟨"Assembled In", true, ", "⟩] 0 []).head?
          = some ("Assembled In", some s))
    ∧ (runFields ["10"] [⟨"Assembled In", true, ", "⟩] 2 []
      = ("Assembled In", none) :: runFields ["10"] [] 2 []) :=
  ⟨(c9_empty_string_vs_null ["10"] ⟨"Assembled In", true, ", "⟩ [] 0 []).1
      rfl (by decide) (by decide),
   (c9_empty_string_vs_null ["10"] ⟨"Assembled In", true, ", "⟩ [] 0 []).2.1
      rfl (by decide),
   (c9_empty_string_vs_null ["10"] ⟨"Assembled In", true, ", "⟩ [] 2 []).2.2
      (by decide)⟩

/-! ## Claim C5 (corrected) -/

/-- C5, counterexample: the key "a\tb" contains whitespace (a tab), yet
`KeyItem` construction succeeds — the validation only rejects the space
character ' ' (and keys that fail Python `str.islower()`), not general
whitespace. -/
theorem c5_counterexample :
    mkKeyItem "a\tb" "Label" DataType.TEXT
      = Except.ok { key := "a\tb", search_text := "Label",
                    data_type := DataType.TEXT }
    ∧ '\t' ∈ ("a\tb" : String).data
    ∧ isPyWs '\t' = true := by
  refine ⟨rfl, by decide, by decide⟩

/-- C5 (amended): construction raises ValueError for every key containing
an uppercase letter or a space character; it succeeds for every key that
has at least one cased (ASCII letter) character, no uppercase letter, and
no space — in particular whitespace other than ' ' (such as a tab) does not
cause rejection, and entirely caseless keys are also rejected. -/
theorem c5_amended (key s : String) (dt : DataType) :
    ((∃ c ∈ key.data, isUpperAZ c = true) ∨ ' ' ∈ key.data →
      mkKeyItem key s dt
        = Except.error
            (PyError.valueError "Key must be lowercase without spaces"))
    ∧ ((∃ c ∈ key.data, isCasedAscii c = true)
        ∧ (∀ c ∈ key.data, isUpperAZ c = false)
        ∧ ¬ ' ' ∈ key.data →
      mkKeyItem key s dt
        = Except.ok { key := key, search_text := s, data_type := dt }) := by
  constructor
  · intro h
    unfold mkKeyItem pyIslower
    rcases h with h | h
    · rcases h with ⟨c, hc, hu⟩
      have : key.data.any isUpperAZ = true := List.any_eq_true.mpr ⟨c, hc, hu⟩
      simp [this]
    · have : key.data.any (fun c => c = ' ') = true :=
        List.any_eq_true.mpr ⟨' ', h, by simp⟩
      simp [this]
  · intro ⟨⟨c, hc, hcased⟩, hnoupper, hnospace⟩
    unfold mkKeyItem pyIslower
    have h1 : key.data.any isCasedAscii = true := List.any_eq_true.mpr ⟨c, hc, hcased⟩
    have h2 : key.data.any isUpperAZ = false := by
      by_contra hne
      rcases List.any_eq_true.mp (Bool.of_not_eq_false hne) with ⟨d, hd, hdu⟩
      exact absurd (hnoupper d hd) (by simp [hdu])
    have h3 : key.data.any (fun ch => ch = ' ') = false := by
      by_contra hne
      rcases List.any_eq_true.mp (Bool.of_not_eq_false hne) with ⟨d, hd, hds⟩
      exact hnospace (by simpa [of_decide_eq_true hds] using hd)
    simp [h1, h2, h3]

/-- Witness for C5 (amended): a key with an uppercase letter is rejected and
a plain lowercase key is accepted. -/
theorem c5_witness :
    mkKeyItem "Bad" "L" DataType.TEXT
      = Except.error (PyError.valueError "Key must be lowercase without spaces")
    ∧ mkKeyItem "good-key" "L" DataType.TEXT
      = Except.ok { key := "good-key", search_text := "L",
                    data_type := DataType.TEXT } :=
  ⟨(c5_amended "Bad" "L" DataType.TEXT).1 (Or.inl ⟨'B', by decide, by decide⟩),
   (c5_amended "good-key" "L" DataType.TEXT).2
     ⟨⟨'g', by decide, by decide⟩, by decide, by decide⟩⟩

/-! ## Claim C6 (confirmed) -/

theorem add_item_nodup (c : KeyItemCollection) (it : KeyItem)
    (h : (c.items.map KeyItem.key).Nodup) :
    (((add_item c it).1).items.map KeyItem.key).Nodup := by
  unfold add_item
  by_cases hd : c.items.any (fun e => e.key = it.key)
  · simpa [hd] using h
  · have hnm : ¬ it.key ∈ c.items.map KeyItem.key := by
      intro hm
      rcases List.mem_map.mp hm with ⟨e, he, hk⟩
      exact hd (List.any_eq_true.mpr ⟨e, he, by simp [hk]⟩)
    simp only [hd]
    simp [List.nodup_append, h, hnm]

theorem addAll_nodup (its : List KeyItem) :
    ∀ c : KeyItemCollection, (c.items.map KeyItem.key).Nodup →
      ((addAll c its).items.map KeyItem.key).Nodup := by
  induction its with
  | nil => exact fun c h => h
  | cons it rest ih =>
    intro c h
    exact ih ((add_item c it).1) (add_item_nodup c it h)

/-- C6: key uniqueness of the registry — any collection reachable by
`add_item` operations from a distinct-keyed start keeps pairwise-distinct
keys; `add_item` with a key already held raises ValueError and leaves the
collection unchanged; and lookup of a key held by no item raises KeyError
(a LookupError). -/
theorem c6_unique_keys (c : KeyItemCollection) (it : KeyItem)
    (its : List KeyItem) (key : String) :
    ((c.items.map KeyItem.key).Nodup →
      ((addAll c its).items.map KeyItem.key).Nodup)
    ∧ ((∃ e ∈ c.items, e.key = it.key) →
      add_item c it
        = (c, some (PyError.valueError ("Key " ++ it.key ++ " already exists"))))
    ∧ ((∀ e ∈ c.items, e.key ≠ key) →
      getItem c key
        = Except.error
            (PyError.keyError ("No item with key " ++ key ++ " found"))) := by
  refine ⟨addAll_nodup its c, fun h => ?_, fun h => ?_⟩
  · rcases h with ⟨e, he, hk⟩
    unfold add_item
    have hany : c.items.any (fun x => x.key = it.key) = true := by
      simp only [List.any_eq_true, decide_eq_true_eq]
      exact ⟨e, he, hk⟩
    simp [hany]
  · unfold getItem
    have : c.items.find? (fun e => e.key = key) = none :=
      List.find?_eq_none.mpr (fun e he => by simp [h e he])
    simp [this]

/-- Witness for C6: folding two same-keyed adds from the empty collection
keeps keys distinct; a duplicate add fails with ValueError and returns the
collection unchanged; looking up an absent key fails with KeyError. -/
theorem c6_witness :
    ((addAll ⟨[]⟩ [⟨"a", "A", DataType.TEXT, none, none⟩,
        ⟨"a", "B", DataType.TEXT, none, none⟩]).items.map KeyItem.key).Nodup
    ∧ add_item ⟨[⟨"a", "A", DataType.TEXT, none, none⟩]⟩
        ⟨"a", "B", DataType.TEXT, none, none⟩
        = (⟨[⟨"a", "A", DataType.TEXT, none, none⟩]⟩,
           some (PyError.valueError ("Key " ++ "a" ++ " already exists")))
    ∧ getItem ⟨[⟨"a", "A", DataType.TEXT, none, none⟩]⟩ "zz"
        = Except.error
            (PyError.keyError ("No item with key " ++ "zz" ++ " found")) :=
  ⟨(c6_unique_keys ⟨[]⟩ ⟨"a", "A", DataType.TEXT, none, none⟩
      [⟨"a", "A", DataType.TEXT, none, none⟩,
       ⟨"a", "B", DataType.TEXT, none, none⟩] "zz").1 (by simp),
   (c6_unique_keys ⟨[⟨"a", "A", DataType.TEXT, none, none⟩]⟩
      ⟨"a", "B", DataType.TEXT, none, none⟩ [] "zz").2.1
      ⟨⟨"a", "A", DataType.TEXT, none, none⟩, by simp, rfl⟩,
   (c6_unique_keys ⟨[⟨"a", "A", DataType.TEXT, none, none⟩]⟩
      ⟨"a", "B", DataType.TEXT, none, none⟩ [] "zz").2.2
      (by intro e he; simp at he; simp [he])⟩

/-! ## Claim C4 (corrected) -/

theorem zipGo_trace (total : Nat) :
    ∀ (entries : List ZipEntry) (idx : Nat) (coll : KeyItemCollection),
      (zipGo total entries idx coll).2.2
        = (pdfPositions entries idx).map (fun i => (i, total))
  | [], _, _ => rfl
  | e :: rest, idx, coll => by
    by_cases h : lowerEndsPdf e.name <;>
      simp [zipGo, pdfPositions, h, zipGo_trace total rest (idx + 1)]

theorem pdfPositions_lb :
    ∀ (entries : List ZipEntry) (idx : Nat),
      ∀ x ∈ pdfPositions entries idx, idx ≤ x
  | [], _ => by simp [pdfPositions]
  | e :: rest, idx => by
    intro x hx
    by_cases h : lowerEndsPdf e.name <;> simp [pdfPositions, h] at hx
    · rcases hx with rfl | hx
      · exact Nat.le_refl x
      · exact Nat.le_of_succ_le (pdfPositions_lb rest (idx + 1) x hx)
    · exact Nat.le_of_succ_le (pdfPositions_lb rest (idx + 1) x hx)

theorem pdfPositions_chain :
    ∀ (entries : List ZipEntry) (idx : Nat),
      List.Chain' (fun a b => a < b) (pdfPositions entries idx)
  | [], _ => by simp [pdfPositions]
  | e :: rest, idx => by
    by_cases h : lowerEndsPdf e.name <;> simp [pdfPositions, h]
    · refine List.chain'_cons'.mpr ⟨?_, pdfPositions_chain rest (idx + 1)⟩
      intro y hy
      exact Nat.lt_of_lt_of_le (Nat.lt_succ_self idx)
        (pdfPositions_lb rest (idx + 1) y
          (by simpa using List.mem_of_mem_head? hy))
    · exact pdfPositions_chain rest (idx + 1)

theorem pdfPositions_length :
    ∀ (entries : List ZipEntry) (idx : Nat),
      (pdfPositions entries idx).length
        = (entries.filter (fun e => lowerEndsPdf e.name)).length
  | [], _ => rfl
  | e :: rest, idx => by
    by_cases h : lowerEndsPdf e.name <;>
      simp [pdfPositions, List.filter, h, pdfPositions_length rest (idx + 1)]

/-- C4, counterexample: in an archive whose entries are a non-PDF
"note.txt" followed by the single PDF "a.pdf", the callback fires once but
with arguments (2, 2) — the current index is the position among all archive
entries and the total is the PDF count plus one — whereas the claim
predicts (1, 1) for the first (and only) processed PDF of a 1-PDF
archive. -/
theorem c4_counterexample :
    (process_zip_archive [⟨"note.txt", none⟩, ⟨"a.pdf", some []⟩] ⟨[]⟩).2.2
      = [(2, 2)]
    ∧ (([⟨"note.txt", none⟩, ⟨"a.pdf", some []⟩] : List ZipEntry).filter
        (fun e => lowerEndsPdf e.name)).length = 1
    ∧ ¬ ((2, 2) : Nat × Nat) = (1, 1) := by
  refine ⟨by decide, by decide, by decide⟩

/-- C4 (amended): the progress callback is invoked exactly once per
processed PDF, in order, with strictly increasing current index; but the
current index is the 1-based position of the entry among **all** archive
entries (PDF or not), and the reported total is the number of PDF entries
**plus one**. -/
theorem c4_amended (entries : List ZipEntry) (coll : KeyItemCollection) :
    ((process_zip_archive entries coll).2.2
      = (pdfPositions entries 1).map
          (fun i =>
            (i, (entries.filter (fun e => lowerEndsPdf e.name)).length + 1)))
    ∧ ((process_zip_archive entries coll).2.2.length
      = (entries.filter (fun e => lowerEndsPdf e.name)).length)
    ∧ (∀ p ∈ (process_zip_archive entries coll).2.2,
        p.2 = (entries.filter (fun e => lowerEndsPdf e.name)).length + 1)
    ∧ List.Chain' (fun a b : Nat × Nat => a.1 < b.1)
        (process_zip_archive entries coll).2.2 := by
  have htr := zipGo_trace
    ((entries.filter (fun e => lowerEndsPdf e.name)).length + 1) entries 1 coll
  unfold process_zip_archive
  refine ⟨htr, ?_, ?_, ?_⟩
  · rw [htr]
    simp [pdfPositions_length entries 1]
  · rw [htr]
    intro p hp
    rcases List.mem_map.mp hp with ⟨i, _, rfl⟩
    rfl
  · rw [htr]
    exact (List.chain'_map _).mpr (pdfPositions_chain entries 1)

/-- Witness for C4 (amended): the two-entry archive of the counterexample,
evaluated through the amended characterization. -/
theorem c4_witness :
    (process_zip_archive [⟨"note.txt", none⟩, ⟨"a.pdf", some []⟩] ⟨[]⟩).2.2
      = (pdfPositions [⟨"note.txt", none⟩, ⟨"a.pdf", some []⟩] 1).map
          (fun i =>
            (i, (([⟨"note.txt", none⟩, ⟨"a.pdf", some []⟩] : List ZipEntry).filter
              (fun e => lowerEndsPdf e.name)).length + 1)) :=
  (c4_amended [⟨"note.txt", none⟩, ⟨"a.pdf", some []⟩] ⟨[]⟩).1

/-! ## Claim C8 (confirmed) -/

/-- C8: after a document's record is built, the shared collection is reset —
every item's result becomes null regardless of prior match state, the reset
is idempotent, and the batch loop hands exactly the reset collection to the
processing of the next entry. -/
theorem c8_reset_between_documents (c : KeyItemCollection) (total idx : Nat)
    (e : ZipEntry) (rest : List ZipEntry) (coll : KeyItemCollection)
    (hp : lowerEndsPdf e.name = true) :
    (∀ it ∈ (resetColl c).items, it.result = none)
    ∧ resetColl (resetColl c) = resetColl c
    ∧ zipGo total (e :: rest) idx coll
      = (mkRecordDict e.name (process_single_pdf e.pages coll).2.items
            (process_single_pdf e.pages coll).1 ::
          (zipGo total rest (idx + 1)
            (resetColl (process_single_pdf e.pages coll).2)).1,
         (zipGo total rest (idx + 1)
            (resetColl (process_single_pdf e.pages coll).2)).2.1,
         (idx, total) ::
           (zipGo total rest (idx + 1)
            (resetColl (process_single_pdf e.pages coll).2)).2.2) := by
  refine ⟨?_, ?_, ?_⟩
  · intro it hit
    rcases List.mem_map.mp (by simpa [resetColl] using hit) with ⟨x, _, rfl⟩
    rfl
  · unfold resetColl
    rw [List.map_map]
    rfl
  · simp [zipGo, hp]

/-- Witness for C8: a one-PDF archive starting from a collection whose item
already holds a stale result — the reset nulls it, resetting twice equals
resetting once, and the loop equation holds at these concrete inputs. -/
theorem c8_witness :
    (∀ it ∈ (resetColl ⟨[⟨"k", "K", DataType.TEXT, some "stale", none⟩]⟩).items,
      it.result = none)
    ∧ resetColl (resetColl ⟨[⟨"k", "K", DataType.TEXT, some "stale", none⟩]⟩)
      = resetColl ⟨[⟨"k", "K", DataType.TEXT, some "stale", none⟩]⟩
    ∧ zipGo 2 [⟨"a.pdf", none⟩] 1
        ⟨[⟨"k", "K", DataType.TEXT, some "stale", none⟩]⟩
      = (mkRecordDict "a.pdf"
            (process_single_pdf none
              ⟨[⟨"k", "K", DataType.TEXT, some "stale", none⟩]⟩).2.items
            (process_single_pdf none
              ⟨[⟨"k", "K", DataType.TEXT, some "stale", none⟩]⟩).1 ::
          (zipGo 2 [] 2
            (resetColl (process_single_pdf none
              ⟨[⟨"k", "K", DataType.TEXT, some "stale", none⟩]⟩).2)).1,
         (zipGo 2 [] 2
            (resetColl (process_single_pdf none
              ⟨[⟨"k", "K", DataType.TEXT, some "stale", none⟩]⟩).2)).2.1,
         (1, 2) ::
           (zipGo 2 [] 2
            (resetColl (process_single_pdf none
              ⟨[⟨"k", "K", DataType.TEXT, some "stale", none⟩]⟩).2)).2.2) := by
  have h := c8_reset_between_documents
    ⟨[⟨"k", "K", DataType.TEXT, some "stale", none⟩]⟩ 2 1
    ⟨"a.pdf", none⟩ [] ⟨[⟨"k", "K", DataType.TEXT, some "stale", none⟩]⟩
    (by decide)
  exact h

/-! ## Claim C7 (confirmed) -/

theorem updateFirst_map_skel (k v : String) :
    ∀ items : List KeyItem,
      (updateFirst k v items).map skelItem = items.map skelItem
  | [] => rfl
  | it :: rest => by
    by_cases h : it.key = k <;>
      simp [updateFirst, h, updateFirst_map_skel k v rest, skelItem]

theorem scanLine_map_skel (st : ScanState) (l : String) :
    (scanLine st l).items.map skelItem = st.items.map skelItem := by
  unfold scanLine
  cases st.keyFound with
  | none =>
    by_cases h : dictHasKey st.mapping (pyStripS l) <;> simp [h]
  | some lbl =>
    by_cases he : lbl = ""
    · by_cases h : dictHasKey st.mapping (pyStripS l) <;> simp [he, h]
    · cases h : dictLookup st.mapping lbl <;>
        simp [he, h, updateFirst_map_skel]

theorem scanLines_map_skel :
    ∀ (lines : List String) (st : ScanState),
      (scanLines lines st).items.map skelItem = st.items.map skelItem
  | [], _ => rfl
  | l :: rest, st => by
    have h1 := scanLines_map_skel rest (scanLine st l)
    simpa [scanLines, scanLine_map_skel st l] using h1

theorem process_kv_map_skel :
    ∀ (pages : List String) (st : ScanState),
      (process_key_value_pairs pages st).items.map skelItem
        = st.items.map skelItem
  | [], _ => rfl
  | p :: rest, st => by
    have h1 := process_kv_map_skel rest (scanLines (pageLines p) st)
    have h2 := scanLines_map_skel (pageLines p) st
    have h3 : process_key_value_pairs (p :: rest) st
        = process_key_value_pairs rest (scanLines (pageLines p) st) := rfl
    rw [h3]
    exact h1.trans h2

theorem process_single_pdf_map_skel (pages? : Option (List String))
    (coll : KeyItemCollection) :
    (process_single_pdf pages? coll).2.items.map skelItem
      = coll.items.map skelItem := by
  cases pages? with
  | none => rfl
  | some pages => simpa [process_single_pdf] using
      process_kv_map_skel pages ⟨coll.items, mkMapping coll.items, none⟩

theorem resetColl_eq_self (c : KeyItemCollection)
    (h : ∀ it ∈ c.items, it.result = none) : resetColl c = c := by
  unfold resetColl
  have : ∀ items : List KeyItem, (∀ it ∈ items, it.result = none) →
      items.map skelItem = items := by
    intro items
    induction items with
    | nil => intro _; rfl
    | cons it rest ih =>
      intro hall
      have h0 : it.result = none := hall it (by simp)
      have h1 : skelItem it = it := by
        cases it
        simp_all [skelItem]
      simp [h1, ih (fun x hx => hall x (by simp [hx]))]
  cases c with
  | mk items => simpa using this items h

theorem resetColl_process_single_pdf (pages? : Option (List String))
    (coll : KeyItemCollection) :
    resetColl (process_single_pdf pages? coll).2 = resetColl coll := by
  unfold resetColl
  rw [process_single_pdf_map_skel]

theorem zipGo_records (total : Nat) (coll : KeyItemCollection)
    (h : ∀ it ∈ coll.items, it.result = none) :
    ∀ (entries : List ZipEntry) (idx : Nat),
      (zipGo total entries idx coll).1
        = (entries.filter (fun e => lowerEndsPdf e.name)).map
            (docRecord coll)
  | [], _ => rfl
  | e :: rest, idx => by
    by_cases hp : lowerEndsPdf e.name
    · have hreset : resetColl (process_single_pdf e.pages coll).2 = coll := by
        rw [resetColl_process_single_pdf, resetColl_eq_self coll h]
      simp [zipGo, hp, List.filter_cons, hreset,
        zipGo_records total coll h rest (idx + 1), docRecord]
    · simp [zipGo, hp, List.filter_cons,
        zipGo_records total coll h rest (idx + 1)]

theorem mem_dictInsert {α : Type} (k : String) (v : α) (p : String × α) :
    ∀ d : List (String × α), p ∈ dictInsert d k v → p ∈ d ∨ p = (k, v)
  | [] => by simp [dictInsert]
  | q :: d => by
    intro hp
    by_cases h : q.1 = k <;> simp [dictInsert, h] at hp
    · rcases hp with rfl | hp
      · exact Or.inr rfl
      · exact Or.inl (by simp [hp])
    · rcases hp with rfl | hp
      · exact Or.inl (by simp)
      · rcases mem_dictInsert k v p d hp with h2 | h2
        · exact Or.inl (by simp [h2])
        · exact Or.inr h2

theorem mem_dictMerge {α : Type} (p : String × α) :
    ∀ (b a : List (String × α)), p ∈ dictMerge a b → p ∈ a ∨ p ∈ b
  | [], _ => fun hp => Or.inl hp
  | q :: b, a => by
    intro hp
    have h1 := mem_dictMerge p b (dictInsert a q.1 q.2) hp
    rcases h1 with h1 | h1
    · rcases mem_dictInsert q.1 q.2 p a h1 with h2 | h2
      · exact Or.inl h2
      · exact Or.inr (by simp [h2])
    · exact Or.inr (by simp [h1])

theorem dictLookup_cons {α : Type} (q : String × α) (d : List (String × α))
    (k : String) :
    dictLookup (q :: d) k = if q.1 = k then some q.2 else dictLookup d k := by
  by_cases h : q.1 = k
  · rw [dictLookup, List.find?_cons_of_pos _ (by simp [h]), if_pos h]
    rfl
  · rw [dictLookup, List.find?_cons_of_neg _ (by simp [h]), if_neg h]
    rfl

theorem dictLookup_insert_ne {α : Type} (k k2 : String) (v : α)
    (hne : ¬ k2 = k) :
    ∀ d : List (String × α), dictLookup (dictInsert d k2 v) k = dictLookup d k
  | [] => by
    simp only [dictInsert, dictLookup_cons]
    rw [if_neg hne]
  | q :: d => by
    by_cases h : q.1 = k2
    · simp only [dictInsert, if_pos h, dictLookup_cons]
      rw [if_neg hne, if_neg (fun e : q.1 = k => hne (h.symm.trans e))]
    · simp only [dictInsert, if_neg h, dictLookup_cons]
      rw [dictLookup_insert_ne k k2 v hne d]

theorem dictLookup_merge_absent {α : Type} (k : String) :
    ∀ (b a : List (String × α)), (∀ p ∈ b, ¬ p.1 = k) →
      dictLookup (dictMerge a b) k = dictLookup a k
  | [], _, _ => rfl
  | q :: b, a, hb => by
    have h1 := dictLookup_merge_absent k b (dictInsert a q.1 q.2)
      (fun p hp => hb p (by simp [hp]))
    unfold dictMerge at h1 ⊢
    rw [List.foldl_cons, h1,
      dictLookup_insert_ne k q.1 q.2 (hb q (by simp))]

theorem mem_scalar_fold (p : String × Option String) :
    ∀ (items : List KeyItem) (d : List (String × Option String)),
      p ∈ items.foldl (fun acc it => dictInsert acc it.key it.result) d →
      p ∈ d ∨ ∃ it ∈ items, p = (it.key, it.result)
  | [], _ => fun hp => Or.inl hp
  | it :: items, d => by
    intro hp
    rcases mem_scalar_fold p items (dictInsert d it.key it.result) hp with h | h
    · rcases mem_dictInsert it.key it.result p d h with h2 | h2
      · exact Or.inl h2
      · exact Or.inr ⟨it, by simp, h2⟩
    · rcases h with ⟨x, hx, he⟩
      exact Or.inr ⟨x, by simp [hx], he⟩

theorem field_names_have_upper :
    ∀ fd ∈ field_definitions, fd.name.data.any isUpperAZ = true := by decide

theorem field_names_ne_filename :
    ∀ fd ∈ field_definitions, ¬ fd.name = "filename" := by decide

/-- C7: a failure opening/reading a single PDF is contained at the document
boundary — the batch yields exactly one record per PDF entry, in entry
order (each produced by `docRecord` against the clean shared collection);
and the record of a failing entry still carries the correct filename, every
other binding in it is null, and none of the nine body field names occurs
in it. -/
theorem c7_failure_isolation (entries : List ZipEntry)
    (coll : KeyItemCollection)
    (h0 : ∀ it ∈ coll.items, it.result = none)
    (h1 : ∀ it ∈ coll.items, pyIslower it.key = true)
    (h2 : ∀ it ∈ coll.items, ¬ it.key = "filename") :
    ((process_zip_archive entries coll).1
      = (entries.filter (fun e => lowerEndsPdf e.name)).map (docRecord coll))
    ∧ (∀ e : ZipEntry, e.pages = none →
        dictLookup (docRecord coll e) "filename" = some (some e.name)
        ∧ (∀ p ∈ docRecord coll e, ¬ p.1 = "filename" → p.2 = none)
        ∧ (∀ fd ∈ field_definitions,
            dictHasKey (docRecord coll e) fd.name = false)) := by
  constructor
  · exact zipGo_records _ coll h0 entries 1
  · intro e he
    have hrec : docRecord coll e
        = dictMerge [("filename", some e.name)]
            (coll.items.foldl (fun d it => dictInsert d it.key it.result) []) := by
      unfold docRecord
      rw [he]
      rfl
    have hmemB : ∀ p ∈ coll.items.foldl
        (fun d it => dictInsert d it.key it.result) [],
        ∃ it ∈ coll.items, p = (it.key, it.result) := by
      intro p hp
      rcases mem_scalar_fold p coll.items [] hp with h | h
      · simp at h
      · exact h
    refine ⟨?_, ?_, ?_⟩
    · rw [hrec, dictLookup_merge_absent]
      · simp [dictLookup_cons]
      · intro p hp
        rcases hmemB p hp with ⟨it, hit, rfl⟩
        exact h2 it hit
    · intro p hp hne
      rw [hrec] at hp
      rcases mem_dictMerge p _ _ hp with h | h
      · simp at h
        exact absurd (by simp [h]) hne
      · rcases hmemB p h with ⟨it, hit, rfl⟩
        exact h0 it hit
    · intro fd hfd
      by_contra hcon
      have hk : dictHasKey (docRecord coll e) fd.name = true := by
        revert hcon
        cases dictHasKey (docRecord coll e) fd.name <;> simp
      rcases List.any_eq_true.mp hk with ⟨p, hp, hpk⟩
      have hpk2 : p.1 = fd.name := by simpa using hpk
      rw [hrec] at hp
      rcases mem_dictMerge p _ _ hp with h | h
      · have : p.1 = "filename" := by simp at h; simp [h]
        exact field_names_ne_filename fd hfd (hpk2.symm.trans this)
      · rcases hmemB p h with ⟨it, hit, rfl⟩
        have hlow := h1 it hit
        unfold pyIslower at hlow
        have hup : it.key.data.any isUpperAZ = false := by
          have hr := (Bool.and_eq_true _ _).mp hlow
          simpa using hr.2
        have : fd.name.data.any isUpperAZ = false := by
          rw [← hpk2]
          exact hup
        rw [field_names_have_upper fd hfd] at this
        exact Bool.true_eq_false.mp this

/-- Witness for C7: a one-entry archive whose only PDF fails to open, with a
freshly configured one-item collection — the batch emits exactly that
entry's record, and that record has the right filename, a null scalar, and
no body fields. -/
theorem c7_witness :
    ((process_zip_archive [⟨"a.pdf", none⟩]
        ⟨[⟨"gross-weight", "Gross Weight", DataType.TEXT, none, none⟩]⟩).1
      = (([⟨"a.pdf", none⟩] : List ZipEntry).filter
          (fun e => lowerEndsPdf e.name)).map
            (docRecord ⟨[⟨"gross-weight", "Gross Weight", DataType.TEXT,
              none, none⟩]⟩))
    ∧ (∀ e : ZipEntry, e.pages = none →
        dictLookup (docRecord ⟨[⟨"gross-weight", "Gross Weight",
            DataType.TEXT, none, none⟩]⟩ e) "filename" = some (some e.name)
        ∧ (∀ p ∈ docRecord ⟨[⟨"gross-weight", "Gross Weight", DataType.TEXT,
            none, none⟩]⟩ e, ¬ p.1 = "filename" → p.2 = none)
        ∧ (∀ fd ∈ field_definitions,
            dictHasKey (docRecord ⟨[⟨"gross-weight", "Gross Weight",
              DataType.TEXT, none, none⟩]⟩ e) fd.name = false)) :=
  c7_failure_isolation [⟨"a.pdf", none⟩]
    ⟨[⟨"gross-weight", "Gross Weight", DataType.TEXT, none, none⟩]⟩
    (by decide) (by decide) (by decide)

/-! ## Claim C10 (confirmed) -/

theorem resultOf_cons (it : KeyItem) (items : List KeyItem) (k : String) :
    resultOf (it :: items) k
      = if it.key = k then some it.result else resultOf items k := by
  by_cases h : it.key = k
  · rw [resultOf, List.find?_cons_of_pos _ (by simp [h]), if_pos h]
    rfl
  · rw [resultOf, List.find?_cons_of_neg _ (by simp [h]), if_neg h]
    rfl

theorem resultOf_updateFirst_ne (k kb v : String) (hne : ¬ k = kb) :
    ∀ items : List KeyItem,
      resultOf (updateFirst k v items) kb = resultOf items kb
  | [] => rfl
  | it :: rest => by
    by_cases h : it.key = k
    · simp only [updateFirst, if_pos h, resultOf_cons]
      rw [if_neg (fun e => hne (h.symm.trans e)),
        if_neg (fun e => hne (h.symm.trans e))]
    · simp only [updateFirst, if_neg h, resultOf_cons]
      rw [resultOf_updateFirst_ne k kb v hne rest]

theorem pending_line_not_tested (st : ScanState) (l lbl : String)
    (h : st.keyFound = some lbl) (hne : ¬ lbl = "") :
    (scanLine st l).keyFound = none
    ∧ (scanLine st l).mapping = dictDelete st.mapping lbl := by
  cases hlk : dictLookup st.mapping lbl <;> simp [scanLine, h, hne, hlk]

theorem scan_consecutive_labels (st : ScanState) (la lb ka : String)
    (hkf : st.keyFound = none) (hne : ¬ pyStripS la = "")
    (hlk : dictLookup st.mapping (pyStripS la) = some ka) :
    scanLines [la, lb] st
      = ⟨updateFirst ka (pyStripS lb) st.items,
         dictDelete st.mapping (pyStripS la), none⟩ := by
  have hhk : dictHasKey st.mapping (pyStripS la) = true := by
    rcases Option.map_eq_some'.mp hlk with ⟨p, hfind, hsnd⟩
    exact List.any_eq_true.mpr ⟨p, List.mem_of_find?_eq_some hfind,
      by simpa using List.find?_some hfind⟩
  have h1 : scanLine st la = { st with keyFound := some (pyStripS la) } := by
    simp [scanLine, hkf, hhk]
  have h2 : scanLine { st with keyFound := some (pyStripS la) } lb
      = ⟨updateFirst ka (pyStripS lb) st.items,
         dictDelete st.mapping (pyStripS la), none⟩ := by
    simp [scanLine, hne, hlk]
  show scanLine (scanLine st la) lb = _
  rw [h1, h2]

theorem scan_result_stable (kb : String) :
    ∀ (lines : List String) (st : ScanState),
      (∀ x, st.keyFound = some x →
        ∀ p ∈ st.mapping, p.1 = x → ¬ p.2 = kb) →
      (∀ l ∈ lines, ∀ p ∈ st.mapping, pyStripS l = p.1 → ¬ p.2 = kb) →
      resultOf (scanLines lines st).items kb = resultOf st.items kb
  | [], _, _, _ => rfl
  | l :: rest, st, hpend, hlines => by
    have hitems : resultOf (scanLine st l).items kb
        = resultOf st.items kb := by
      cases hkf : st.keyFound with
      | none =>
        by_cases h : dictHasKey st.mapping (pyStripS l) <;>
          simp [scanLine, hkf, h]
      | some lbl =>
        by_cases hlbl : lbl = ""
        · by_cases h : dictHasKey st.mapping (pyStripS l) <;>
            simp [scanLine, hkf, hlbl, h]
        · cases hlk : dictLookup st.mapping lbl with
          | none => simp [scanLine, hkf, hlbl, hlk]
          | some k =>
            have hk : ¬ k = kb := by
              rcases Option.map_eq_some'.mp hlk with ⟨p, hfind, hsnd⟩
              have hp1 : p.1 = lbl := by simpa using List.find?_some hfind
              exact hsnd ▸ hpend lbl hkf p
                (List.mem_of_find?_eq_some hfind) hp1
            simp [scanLine, hkf, hlbl, hlk,
              resultOf_updateFirst_ne k kb _ hk]
    have hpend2 : ∀ x, (scanLine st l).keyFound = some x →
        ∀ p ∈ (scanLine st l).mapping, p.1 = x → ¬ p.2 = kb := by
      cases hkf : st.keyFound with
      | none =>
        by_cases h : dictHasKey st.mapping (pyStripS l)
        · intro x hx p hp hp1
          have hx2 : pyStripS l = x := by
            simpa [scanLine, hkf, h] using hx
          have hp2 : p ∈ st.mapping := by
            simpa [scanLine, hkf, h] using hp
          exact hlines l (by simp) p hp2 (hp1 ▸ hx2)
        · intro x hx
          rw [show scanLine st l = st from by simp [scanLine, hkf, h]] at hx
          rw [hkf] at hx
          exact absurd hx (by simp)
      | some lbl =>
        by_cases hlbl : lbl = ""
        · by_cases h : dictHasKey st.mapping (pyStripS l)
          · intro x hx p hp hp1
            have hx2 : pyStripS l = x := by
              simpa [scanLine, hkf, hlbl, h] using hx
            have hp2 : p ∈ st.mapping := by
              simpa [scanLine, hkf, hlbl, h] using hp
            exact hlines l (by simp) p hp2 (hp1 ▸ hx2)
          · intro x hx p hp hp1
            rw [show scanLine st l = st from
              by simp [scanLine, hkf, hlbl, h]] at hx hp
            rw [hkf] at hx
            have hxl : lbl = x := by simpa using hx
            exact hpend lbl hkf p hp (hp1.trans hxl.symm)
        · intro x hx
          rw [(pending_line_not_tested st l lbl hkf hlbl).1] at hx
          exact absurd hx (by simp)
    have hlines2 : ∀ l2 ∈ rest, ∀ p ∈ (scanLine st l).mapping,
        pyStripS l2 = p.1 → ¬ p.2 = kb := by
      intro l2 hl2 p hp
      have hp2 : p ∈ st.mapping := by
        cases hkf : st.keyFound with
        | none =>
          by_cases h : dictHasKey st.mapping (pyStripS l) <;>
            simpa [scanLine, hkf, h] using hp
        | some lbl =>
          by_cases hlbl : lbl = ""
          · by_cases h : dictHasKey st.mapping (pyStripS l) <;>
              simpa [scanLine, hkf, hlbl, h] using hp
          · rw [(pending_line_not_tested st l lbl hkf hlbl).2] at hp
            exact List.mem_of_mem_filter hp
      exact hlines l2 (by simp [hl2]) p hp2
    have hnext := scan_result_stable kb rest (scanLine st l) hpend2 hlines2
    show resultOf (scanLines rest (scanLine st l)).items kb = _
    rw [hnext, hitems]

theorem process_kv_flatten :
    ∀ (pages : List String) (st : ScanState),
      process_key_value_pairs pages st
        = scanLines ((pages.map pageLines).flatten) st
  | [], _ => rfl
  | p :: rest, st => by
    have h1 := process_kv_flatten rest (scanLines (pageLines p) st)
    show process_key_value_pairs rest (scanLines (pageLines p) st) = _
    rw [h1]
    simp [scanLines, List.foldl_append]

/-- C10, counterexample: `KeyItem` validates only `key`, so a label equal to
the empty string can be registered.  With labels "" and "B" on consecutive
lines, after the blank line makes "" pending, the pending slot is **falsy**
at the `if key_found:` test (main.py 231), so the next line "B" is tested
against the mapping and becomes the new pending label — it is not consumed
as the value of "", the key `kempty` keeps a null result, and the scanner
state is not the consumption state the claim asserts for consecutive
labels. -/
theorem c10_counterexample :
    (scanLines ["", "B"] ⟨c10EmptyItems, c10EmptyMap, none⟩).keyFound
      = some "B"
    ∧ resultOf (scanLines ["", "B"]
        ⟨c10EmptyItems, c10EmptyMap, none⟩).items "kempty" = some none
    ∧ ¬ scanLines ["", "B"] ⟨c10EmptyItems, c10EmptyMap, none⟩
        = ⟨updateFirst "kempty" (pyStripS "B") c10EmptyItems,
           dictDelete c10EmptyMap (pyStripS ""), none⟩ := by
  refine ⟨by decide, by decide, by decide⟩

/-- C10 (amended): Key-Value Scanner semantics, for pending labels that are
**non-empty** (Python's `if key_found:` is a truthiness test, so an empty
pending label falls through to the membership test instead of consuming) —
(i) a line consumed as the value of a non-empty pending label is never
itself tested against the mapping: the pending slot is cleared and the
mapping only loses the consumed label, whatever the line says; (ii) two
registered labels on consecutive lines, the first non-empty, make the
second label's line the first label's value, touching only the first
label's item; (iii) an item's result is unchanged by any stretch of lines
none of which strips to a label mapped to its key (so the second label's
result stays null unless its text occurs again later); (iv) scanning is a
fold over the concatenated lines of all pages, so a pending label carries
across page boundaries; (v) a label matched with nothing pending only sets
the pending slot — matched on the final line, it leaves every result
untouched; (vi) with the empty string pending, the next line is tested
against the mapping exactly as if nothing were pending. -/
theorem c10_scanner_pairing :
    (∀ (st : ScanState) (l lbl : String), st.keyFound = some lbl →
      ¬ lbl = "" →
      (scanLine st l).keyFound = none
      ∧ (scanLine st l).mapping = dictDelete st.mapping lbl)
    ∧ (∀ (st : ScanState) (la lb ka : String), st.keyFound = none →
        ¬ pyStripS la = "" →
        dictLookup st.mapping (pyStripS la) = some ka →
        scanLines [la, lb] st
          = ⟨updateFirst ka (pyStripS lb) st.items,
             dictDelete st.mapping (pyStripS la), none⟩)
    ∧ (∀ (kb : String) (lines : List String) (st : ScanState),
        (∀ x, st.keyFound = some x →
          ∀ p ∈ st.mapping, p.1 = x → ¬ p.2 = kb) →
        (∀ l ∈ lines, ∀ p ∈ st.mapping, pyStripS l = p.1 → ¬ p.2 = kb) →
        resultOf (scanLines lines st).items kb = resultOf st.items kb)
    ∧ (∀ (pages : List String) (st : ScanState),
        process_key_value_pairs pages st
          = scanLines ((pages.map pageLines).flatten) st)
    ∧ (∀ (st : ScanState) (l : String), st.keyFound = none →
        dictHasKey st.mapping (pyStripS l) = true →
        scanLine st l = { st with keyFound := some (pyStripS l) })
    ∧ (∀ (st : ScanState) (l : String), st.keyFound = some "" →
        scanLine st l
          = (if dictHasKey st.mapping (pyStripS l)
              then { st with keyFound := some (pyStripS l) }
              else st)) :=
  ⟨pending_line_not_tested, scan_consecutive_labels, scan_result_stable,
   process_kv_flatten,
   fun st l hkf hhk => by simp [scanLine, hkf, hhk],
   fun st l hkf => by
     by_cases h : dictHasKey st.mapping (pyStripS l) <;>
       simp [scanLine, hkf, h]⟩

/-- Witness for C10 (amended): with labels "A" and "B" registered, the line
after a pending "A" is consumed (never tested), consecutive labels "A","B"
store "B" as the value of key `ka` while `kb` stays untouched, scanning
lines that never mention label "B" leaves `kb`'s result unchanged, page
boundaries do not matter, a trailing matched label only sets the pending
slot, and a pending empty label lets the next line be tested against the
mapping. -/
theorem c10_witness :
    ((scanLine ⟨c10Items, c10Map, some "A"⟩ "B").keyFound = none
      ∧ (scanLine ⟨c10Items, c10Map, some "A"⟩ "B").mapping
          = dictDelete c10Map "A")
    ∧ scanLines ["A", "B"] ⟨c10Items, c10Map, none⟩
        = ⟨updateFirst "ka" (pyStripS "B") c10Items,
           dictDelete c10Map (pyStripS "A"), none⟩
    ∧ resultOf (scanLines ["A", "x"] ⟨c10Items, c10Map, none⟩).items "kb"
        = resultOf c10Items "kb"
    ∧ process_key_value_pairs ["A\nB", "x"] ⟨c10Items, c10Map, none⟩
        = scanLines ((["A\nB", "x"].map pageLines).flatten)
            ⟨c10Items, c10Map, none⟩
    ∧ scanLine ⟨c10Items, c10Map, none⟩ "A"
        = ⟨c10Items, c10Map, some (pyStripS "A")⟩
    ∧ scanLine ⟨c10Items, c10Map, some ""⟩ "B"
        = (if dictHasKey c10Map (pyStripS "B")
            then ⟨c10Items, c10Map, some (pyStripS "B")⟩
            else (⟨c10Items, c10Map, some ""⟩ : ScanState)) :=
  ⟨c10_scanner_pairing.1 ⟨c10Items, c10Map, some "A"⟩ "B" "A" rfl
     (by decide),
   c10_scanner_pairing.2.1 ⟨c10Items, c10Map, none⟩ "A" "B" "ka" rfl
     (by decide) (by decide),
   c10_scanner_pairing.2.2.1 "kb" ["A", "x"] ⟨c10Items, c10Map, none⟩
     (fun x hx => absurd hx (by simp)) (by decide),
   c10_scanner_pairing.2.2.2.1 ["A\nB", "x"] ⟨c10Items, c10Map, none⟩,
   c10_scanner_pairing.2.2.2.2.1 ⟨c10Items, c10Map, none⟩ "A" rfl
     (by decide),
   c10_scanner_pairing.2.2.2.2.2 ⟨c10Items, c10Map, some ""⟩ "B" rfl⟩
